import Mathlib

/-! Shallow embedding of `src/geovisualisasi_ntl.py`.

A raster sample is a floating-point number that may be NaN.  We model the
numeric value by a rational number and numpy's NaN by `none`.  A 2-D raster
array is a list of rows.  Every numpy operation the script applies to pixel
data is elementwise; each is translated pointwise below with numpy's
comparison semantics for NaN (any `>` or `==` comparison involving NaN is
false, arithmetic on NaN yields NaN). -/

/-- A raster sample: `none` models numpy NaN, `some q` an ordinary value. -/
abbrev Val := Option ℚ

/-- A 2-D raster array: a list of rows of samples. -/
abbrev Grid := List (List Val)

/-- A 2-D boolean mask, as produced by numpy elementwise comparisons. -/
abbrev BGrid := List (List Bool)

/-- numpy elementwise `v > c` for a sample and a plain (non-NaN) scalar:
false when `v` is NaN. -/
def vgtc (v : Val) (c : ℚ) : Bool :=
  match v with
  | some a => decide (c < a)
  | none => false

/-- numpy `x > y` on two possibly-NaN scalars (used for
`np.nanmax(data) > np.nanmin(data)`): false when either side is NaN. -/
def vgtv (x y : Val) : Bool :=
  match x, y with
  | some a, some b => decide (b < a)
  | _, _ => false

/-- numpy `np.isnan` on one sample. -/
def visnan (v : Val) : Bool := v.isNone

/-- Subtraction of possibly-NaN scalars: NaN propagates. -/
def vsub (x y : Val) : Val :=
  match x, y with
  | some a, some b => some (a - b)
  | _, _ => none

/-- Division of possibly-NaN scalars: NaN propagates.  (In the one place the
script divides, the denominator is guarded to be nonzero.) -/
def vdiv (x y : Val) : Val :=
  match x, y with
  | some a, some b => some (a / b)
  | _, _ => none

/-- Pairwise maximum ignoring NaN: the reduction underlying `np.nanmax`. -/
def fmax (x y : Val) : Val :=
  match x, y with
  | some a, some b => some (max a b)
  | none, b => b
  | a, none => a

/-- Pairwise minimum ignoring NaN: the reduction underlying `np.nanmin`. -/
def fmin (x y : Val) : Val :=
  match x, y with
  | some a, some b => some (min a b)
  | none, b => b
  | a, none => a

/-- All samples of the array in row-major order. -/
def gridFlat (g : Grid) : List Val := g.flatten

/-- The non-missing (non-NaN) samples of the array, in row-major order. -/
def validValues (g : Grid) : List ℚ := (gridFlat g).filterMap id

/-- `np.sum(~np.isnan(data))`: the number of non-missing samples. -/
def countValid (g : Grid) : ℕ := (gridFlat g).countP (fun v => v.isSome)

/-- Elementwise map over a 2-D array. -/
def gmap (f : Val → Val) (g : Grid) : Grid := g.map (List.map f)

/-- Elementwise boolean test over a 2-D array. -/
def bmap (p : Val → Bool) (g : Grid) : BGrid := g.map (List.map p)

/-- Elementwise conjunction of two boolean masks (numpy `&`). -/
def bzip (m1 m2 : BGrid) : BGrid :=
  List.zipWith (List.zipWith (fun a b => a && b)) m1 m2

/-- `np.where(mask, data, np.nan)`. -/
def gwhere (m : BGrid) (g : Grid) : Grid :=
  List.zipWith (List.zipWith (fun b v => if b then v else none)) m g

/-- `np.nanmax`: maximum over the non-NaN samples; NaN when all are NaN. -/
def nanmax (g : Grid) : Val := (gridFlat g).foldr fmax none

/-- `np.nanmin`: minimum over the non-NaN samples; NaN when all are NaN. -/
def nanmin (g : Grid) : Val := (gridFlat g).foldr fmin none

/-- Translation of `remove_black_blocks_and_keep_bright_pixels`
(src/geovisualisasi_ntl.py lines 104-134), line by line: normalize to [0,1]
when `np.nanmax(data) > np.nanmin(data)` (otherwise use the data itself),
build the bright mask (`data_normalized > brightness_threshold`), the valid
mask (`(data > min_pixel_value) & (~np.isnan(data))`), conjoin them, and keep
the original value where the combined mask holds, NaN elsewhere.  Script
defaults: `brightness_threshold=0.1`, `min_pixel_value=0.01`. -/
def remove_black_blocks_and_keep_bright_pixels (data : Grid)
    (brightness_threshold : ℚ) (min_pixel_value : ℚ) : Grid :=
  let data_normalized : Grid :=
    if vgtv (nanmax data) (nanmin data) then
      gmap (fun v => vdiv (vsub v (nanmin data)) (vsub (nanmax data) (nanmin data))) data
    else
      data
  let bright_mask : BGrid := bmap (fun v => vgtc v brightness_threshold) data_normalized
  let valid_mask : BGrid := bmap (fun v => vgtc v min_pixel_value && !(visnan v)) data
  let final_mask : BGrid := bzip bright_mask valid_mask
  gwhere final_mask data

/-- `plot_geospatial_ntl` line 148 (also `plot_ntl_comparison` line 310 and
`generate_ntl_statistics` line 358): `data[data == src.nodata] = np.nan`.
numpy `==` is false on NaN, so NaN samples stay NaN. -/
def set_nodata_to_nan (g : Grid) (nodata : ℚ) : Grid :=
  gmap (fun v =>
    match v with
    | some a => if a = nodata then none else some a
    | none => none) g

/-- `create_interactive_ntl_map` line 241: `data[data == src.nodata] = 0`. -/
def set_nodata_to_zero (g : Grid) (nodata : ℚ) : Grid :=
  gmap (fun v =>
    match v with
    | some a => if a = nodata then some 0 else some a
    | none => none) g

/-- `np.nan_to_num(data)` (line 252): NaN becomes 0. -/
def nan_to_num (g : Grid) : Grid :=
  gmap (fun v =>
    match v with
    | some a => some a
    | none => some 0) g

/-- Pixel-data pipeline of `plot_geospatial_ntl` up to rendering
(lines 147-158), without the optional administrative masking: replace nodata
with NaN, then apply the bright-pixel filter when `remove_black` is set
(`min_pixel_value` keeps its default 0.01). -/
def plot_geospatial_ntl_data (g : Grid) (nodata brightness_threshold : ℚ)
    (remove_black : Bool) : Grid :=
  let data := set_nodata_to_nan g nodata
  if remove_black then
    remove_black_blocks_and_keep_bright_pixels data brightness_threshold (1 / 100)
  else
    data

/-- Pixel-data pipeline of `create_interactive_ntl_map` for one raster
(lines 240-252), without the optional administrative masking: replace nodata
with 0, then apply the bright-pixel filter and `np.nan_to_num` when
`remove_black` is set. -/
def create_interactive_ntl_map_data (g : Grid) (nodata brightness_threshold : ℚ)
    (remove_black : Bool) : Grid :=
  let data := set_nodata_to_zero g nodata
  if remove_black then
    nan_to_num (remove_black_blocks_and_keep_bright_pixels data brightness_threshold (1 / 100))
  else
    data

/-- The `total_bounds` of the administrative layer: (minx, miny, maxx, maxy). -/
abbrev AdminBounds := ℚ × ℚ × ℚ × ℚ

/-- `mask_with_administrative_boundaries` (lines 48-102).  Everything inside
the `try` block is a sequence of library calls (geopandas read / filter /
reproject, rasterio write and mask): none of that code lives in this
repository, so the whole `try` body is abstracted as `body`, which is
`Except.ok (masked, bounds)` when every step completes and `Except.error e`
when any step raises.  The body never mutates `raster_data` (it only reads it
when writing the temporary file), so the function returns the body's result on
success and `(raster_data, None)` from the `except` handler. -/
def mask_with_administrative_boundaries (raster_data : Grid)
    (body : Except String (Grid × AdminBounds)) : Grid × Option AdminBounds :=
  match body with
  | Except.ok r => (r.1, some r.2)
  | Except.error _ => (raster_data, none)

/-- Insertion into an ascending list (helper for sorting). -/
def insertSorted (a : ℚ) : List ℚ → List ℚ
  | [] => [a]
  | b :: bs => if a ≤ b then a :: b :: bs else b :: insertSorted a bs

/-- Ascending insertion sort (`np.percentile` sorts the valid data). -/
def sortAsc (xs : List ℚ) : List ℚ := xs.foldr insertSorted []

/-- `np.nanpercentile(data, 90)` with the default linear interpolation: drop
the NaNs, sort ascending into `s` of length `n`, put `h = (n-1) * 90/100`,
`k = floor h`, and return `s[k] + (h-k) * (s[k+1] - s[k])`; NaN when there is
no valid sample.  (`k+1` can exceed the last index only when `n = 1`, and then
the factor `h - k` is 0, so the `getD` default never matters.) -/
def nanpercentile90 (g : Grid) : Val :=
  let s := sortAsc (validValues g)
  match s with
  | [] => none
  | _ :: _ =>
    let n : ℕ := s.length
    let h : ℚ := ((n : ℚ) - 1) * (9 / 10)
    let k : ℕ := (Rat.floor h).toNat
    let d : ℚ := h - (k : ℚ)
    some (s.getD k 0 + d * (s.getD (k + 1) (s.getD k 0) - s.getD k 0))

/-- The numeric fields of one row of `generate_ntl_statistics` output that the
claims are about: the dict keys 'Total Area (px)', 'Bright Area (px)' and
'Bright Pixel Ratio (%)'.  The script stores the percentage
`bright_pixel_ratio * 100`; here `bright_frac` keeps the raw fraction
`bright_pixel_ratio`, so the displayed percentage is `100 * bright_frac`.
The Min/Max/Mean/Std fields are not modelled. -/
structure NtlStats where
  total_area : ℕ
  bright_area : ℕ
  bright_frac : ℚ
  deriving Repr, DecidableEq

/-- Per-raster body of the loop in `generate_ntl_statistics` (lines 366-388),
applied after nodata replacement (and optional masking) produced `data`:
with the filter on, bright pixels are the non-NaN samples of the filtered
array; with the filter off, bright pixels are the samples above the 90th
percentile (`np.sum(data_cleaned > np.nanpercentile(data_cleaned, 90))`,
where comparison with NaN is false).  The ratio is `bright / total` when
`total_pixel_count > 0`, else 0. -/
def generate_ntl_statistics (data : Grid) (remove_black : Bool)
    (brightness_threshold : ℚ) : NtlStats :=
  if remove_black then
    let data_cleaned :=
      remove_black_blocks_and_keep_bright_pixels data brightness_threshold (1 / 100)
    let bright_pixel_count := countValid data_cleaned
    let total_pixel_count := countValid data
    { total_area := total_pixel_count,
      bright_area := bright_pixel_count,
      bright_frac := if 0 < total_pixel_count
        then (bright_pixel_count : ℚ) / (total_pixel_count : ℚ) else 0 }
  else
    let data_cleaned := data
    let bright_pixel_count := (gridFlat data_cleaned).countP
      (fun v => vgtv v (nanpercentile90 data_cleaned))
    let total_pixel_count := countValid data_cleaned
    { total_area := total_pixel_count,
      bright_area := bright_pixel_count,
      bright_frac := if 0 < total_pixel_count
        then (bright_pixel_count : ℚ) / (total_pixel_count : ℚ) else 0 }

/-- Sample of `g` at row `i`, column `j`: `some v` when the position is in
bounds (`v` itself may be the missing marker), `none` when out of bounds. -/
def getPix (g : Grid) (i j : ℕ) : Option Val :=
  (g[i]?).bind fun row => row[j]?

/-- The filter collapsed to a single per-sample rule: once `lo = nanmin data`
and `hi = nanmax data` are fixed, each output sample depends only on the
corresponding input sample. -/
def brightPixelRule (lo hi : Val) (t m : ℚ) (v : Val) : Val :=
  if vgtc (if vgtv hi lo then vdiv (vsub v lo) (vsub hi lo) else v) t
      && (vgtc v m && !(visnan v)) then
    v
  else
    none

/-- Keep-condition of claim C1, written from the spec's words: keep `v` when
`(v - lo) / (hi - lo) > threshold` and `v > min_abs_value` and `v` is not
missing. -/
def specKeep (lo hi t m : ℚ) (v : Val) : Bool :=
  match v with
  | some a => decide (t < (a - lo) / (hi - lo)) && decide (m < a)
  | none => false

/-- Keep-condition in the degenerate `hi == lo` branch, written from the
spec's words: the raw value is compared to the threshold directly (the valid
mask `v > min_abs_value`, `v` not missing is unchanged). -/
def rawKeep (t m : ℚ) (v : Val) : Bool :=
  match v with
  | some a => decide (t < a) && decide (m < a)
  | none => false

/-- Maximum of a plain list of samples, written from the spec's words
(`hi = max` over all non-missing samples). -/
def spec_max_list : List ℚ → Option ℚ
  | [] => none
  | a :: as =>
    some (match spec_max_list as with
      | none => a
      | some b => max a b)

/-- Minimum of a plain list of samples, written from the spec's words
(`lo = min` over all non-missing samples). -/
def spec_min_list : List ℚ → Option ℚ
  | [] => none
  | a :: as =>
    some (match spec_min_list as with
      | none => a
      | some b => min a b)

/-! Helper lemmas. -/

theorem zipWith_map_map {α β γ δ : Type} (f : β → γ → δ) (g : α → β) (h : α → γ)
    (l : List α) :
    List.zipWith f (l.map g) (l.map h) = l.map (fun x => f (g x) (h x)) := by
  rw [List.zipWith_map, List.zipWith_same]

theorem zipWith_map_left_same {α β γ : Type} (f : β → α → γ) (g : α → β)
    (l : List α) :
    List.zipWith f (l.map g) l = l.map (fun x => f (g x) x) := by
  rw [List.zipWith_map_left, List.zipWith_same]

theorem remove_black_eq_pixelMap (data : Grid) (t m : ℚ) :
    remove_black_blocks_and_keep_bright_pixels data t m
      = gmap (brightPixelRule (nanmin data) (nanmax data) t m) data := by
  unfold remove_black_blocks_and_keep_bright_pixels brightPixelRule
  by_cases hg : vgtv (nanmax data) (nanmin data)
  · simp only [hg, if_true, gmap, bmap, bzip, gwhere, List.map_map, Function.comp,
      zipWith_map_map, zipWith_map_left_same]
  · simp only [hg, if_false, Bool.false_eq_true, gmap, bmap, bzip, gwhere,
      List.map_map, Function.comp, zipWith_map_map, zipWith_map_left_same]

theorem getPix_gmap (f : Val → Val) (g : Grid) (i j : ℕ) :
    getPix (gmap f g) i j = (getPix g i j).map f := by
  unfold getPix gmap
  rw [List.getElem?_map]
  cases g[i]? with
  | none => rfl
  | some row => simp [List.getElem?_map]

theorem brightPixelRule_none (lo hi : Val) (t m : ℚ) :
    brightPixelRule lo hi t m none = none := by
  unfold brightPixelRule
  simp [vsub, vdiv, vgtc, visnan, ite_self]

theorem brightPixelRule_of_lt (lo hi t m : ℚ) (hlt : lo < hi) (v : Val) :
    brightPixelRule (some lo) (some hi) t m v
      = if specKeep lo hi t m v then v else none := by
  cases v with
  | none => simp [brightPixelRule, specKeep, vgtv, vgtc, vsub, vdiv, visnan, hlt]
  | some a => simp [brightPixelRule, specKeep, vgtv, vgtc, vsub, vdiv, visnan, hlt]

theorem brightPixelRule_of_eq (c t m : ℚ) (v : Val) :
    brightPixelRule (some c) (some c) t m v
      = if rawKeep t m v then v else none := by
  cases v with
  | none => simp [brightPixelRule, rawKeep, vgtv, vgtc, vsub, vdiv, visnan]
  | some a => simp [brightPixelRule, rawKeep, vgtv, vgtc, vsub, vdiv, visnan]

theorem brightPixelRule_threshold_antitone (lo hi : Val) (t1 t2 m : ℚ)
    (h12 : t1 ≤ t2) (v : Val) (a : ℚ)
    (h : brightPixelRule lo hi t2 m v = some a) :
    brightPixelRule lo hi t1 m v = some a := by
  unfold brightPixelRule at h ⊢
  generalize hnv : (if vgtv hi lo then vdiv (vsub v lo) (vsub hi lo) else v) = nv at h ⊢
  cases hc : (vgtc nv t2 && (vgtc v m && !(visnan v))) with
  | false => rw [hc] at h; simp at h
  | true =>
    rw [hc] at h
    simp only [if_true] at h
    have hparts := hc
    rw [Bool.and_eq_true] at hparts
    obtain ⟨hb, hrest⟩ := hparts
    have hb1 : vgtc nv t1 = true := by
      cases nvv : nv with
      | none => rw [nvv] at hb; simp [vgtc] at hb
      | some b =>
        rw [nvv] at hb
        simp only [vgtc, decide_eq_true_eq] at hb ⊢
        exact lt_of_le_of_lt h12 hb
    rw [hb1, hrest]
    simpa using h

theorem foldr_fmax_eq_spec_max (l : List Val) :
    l.foldr fmax none = spec_max_list (l.filterMap id) := by
  induction l with
  | nil => rfl
  | cons v l ih =>
    cases v with
    | none => simpa [fmax, List.filterMap_cons] using ih
    | some a =>
      simp only [List.foldr_cons, List.filterMap_cons, id, ih]
      cases h : spec_max_list (l.filterMap id) with
      | none => simp [fmax, spec_max_list, h]
      | some b => simp [fmax, spec_max_list, h]

theorem foldr_fmin_eq_spec_min (l : List Val) :
    l.foldr fmin none = spec_min_list (l.filterMap id) := by
  induction l with
  | nil => rfl
  | cons v l ih =>
    cases v with
    | none => simpa [fmin, List.filterMap_cons] using ih
    | some a =>
      simp only [List.foldr_cons, List.filterMap_cons, id, ih]
      cases h : spec_min_list (l.filterMap id) with
      | none => simp [fmin, spec_min_list, h]
      | some b => simp [fmin, spec_min_list, h]

theorem countP_some_eq_countP_filterMap (l : List Val) (p : ℚ → Bool) :
    (l.countP (fun v => match v with | some a => p a | none => false))
      = (l.filterMap id).countP p := by
  induction l with
  | nil => rfl
  | cons v l ih =>
    cases v with
    | none => simpa [List.countP_cons, List.filterMap_cons] using ih
    | some a => simp [List.countP_cons, List.filterMap_cons, ih]

theorem gridFlat_gmap (f : Val → Val) (g : Grid) :
    gridFlat (gmap f g) = (gridFlat g).map f := by
  simp [gridFlat, gmap]

theorem countValid_gmap_le (f : Val → Val) (hf : ∀ v, (f v).isSome → v.isSome)
    (g : Grid) : countValid (gmap f g) ≤ countValid g := by
  unfold countValid
  rw [gridFlat_gmap, List.countP_map]
  exact List.countP_mono_left (fun v _ h => hf v h)

theorem countValid_remove_black_le (data : Grid) (t m : ℚ) :
    countValid (remove_black_blocks_and_keep_bright_pixels data t m)
      ≤ countValid data := by
  rw [remove_black_eq_pixelMap]
  refine countValid_gmap_le _ ?_ data
  intro v h
  cases v with
  | some a => rfl
  | none => rw [brightPixelRule_none] at h; simp at h

theorem countP_vgtv_le_countValid (g : Grid) (p : Val) :
    (gridFlat g).countP (fun v => vgtv v p) ≤ countValid g := by
  unfold countValid
  refine List.countP_mono_left (fun v _ h => ?_)
  cases v with
  | none => simp [vgtv] at h
  | some a => rfl

theorem fracBounds (b tot : ℕ) (hle : b ≤ tot) :
    0 ≤ (if 0 < tot then (b : ℚ) / (tot : ℚ) else 0)
      ∧ (if 0 < tot then (b : ℚ) / (tot : ℚ) else 0) ≤ 1
      ∧ (tot = 0 → (if 0 < tot then (b : ℚ) / (tot : ℚ) else 0) = 0) := by
  by_cases h : 0 < tot
  · refine ⟨?_, ?_, ?_⟩
    · rw [if_pos h]; positivity
    · rw [if_pos h]
      rw [div_le_one (by exact_mod_cast h)]
      exact_mod_cast hle
    · intro h0
      exact absurd h (by omega)
  · rw [if_neg h]
    exact ⟨le_refl 0, by norm_num, fun _ => rfl⟩

/-! Claim theorems. -/

/-- C1: when the non-missing maximum `hi` strictly exceeds the non-missing
minimum `lo`, the bright-pixel filter keeps a sample `v` unchanged in the
output exactly when `(v - lo) / (hi - lo) > brightness_threshold`,
`v > min_pixel_value` and `v` is not missing; every other sample is set to
NaN. -/
theorem remove_black_normalized_keep_rule (data : Grid) (t m lo hi : ℚ)
    (hl : nanmin data = some lo) (hh : nanmax data = some hi) (hlt : lo < hi)
    (i j : ℕ) (v : Val) (hv : getPix data i j = some v) :
    getPix (remove_black_blocks_and_keep_bright_pixels data t m) i j
      = some (if specKeep lo hi t m v then v else none) := by
  rw [remove_black_eq_pixelMap, getPix_gmap, hv, hl, hh]
  simp only [Option.map_some']
  rw [brightPixelRule_of_lt lo hi t m hlt v]

/-- Witness for C1 at the concrete array [[0, 1]] with threshold 1/2 and
minimum value 1/100: the sample 1 normalizes to 1 > 1/2 and is kept. -/
theorem remove_black_normalized_keep_rule_check :
    getPix (remove_black_blocks_and_keep_bright_pixels [[some 0, some 1]]
        (1 / 2) (1 / 100)) 0 1
      = some (if specKeep 0 1 (1 / 2) (1 / 100) (some 1) then some 1 else none) :=
  remove_black_normalized_keep_rule [[some 0, some 1]] (1 / 2) (1 / 100) 0 1
    (by with_unfolding_all decide) (by with_unfolding_all decide)
    (by with_unfolding_all decide) 0 1 (some 1) (by with_unfolding_all decide)

/-- C3: when the non-missing maximum equals the non-missing minimum, the
filter skips normalization: each sample is kept exactly when its raw value
exceeds the brightness threshold (and the valid-mask conditions hold),
otherwise it becomes NaN. -/
theorem remove_black_degenerate_raw_compare (data : Grid) (t m c : ℚ)
    (hl : nanmin data = some c) (hh : nanmax data = some c)
    (i j : ℕ) (v : Val) (hv : getPix data i j = some v) :
    getPix (remove_black_blocks_and_keep_bright_pixels data t m) i j
      = some (if rawKeep t m v then v else none) := by
  rw [remove_black_eq_pixelMap, getPix_gmap, hv, hl, hh]
  simp only [Option.map_some']
  rw [brightPixelRule_of_eq c t m v]

/-- Witness for C3 at the constant array [[5]] with threshold 1 and minimum
value 0: the raw value 5 is compared to the threshold directly and kept. -/
theorem remove_black_degenerate_raw_compare_check :
    getPix (remove_black_blocks_and_keep_bright_pixels [[some 5]] 1 0) 0 0
      = some (if rawKeep 1 0 (some 5) then some 5 else none) :=
  remove_black_degenerate_raw_compare [[some 5]] 1 0 5
    (by with_unfolding_all decide) (by with_unfolding_all decide)
    0 0 (some 5) (by with_unfolding_all decide)

/-- C6: a missing (NaN) input sample is missing (NaN) in the output of the
bright-pixel filter, for every threshold and minimum value (both the
normalized and the degenerate branch). -/
theorem remove_black_preserves_missing (data : Grid) (t m : ℚ) (i j : ℕ)
    (hv : getPix data i j = some none) :
    getPix (remove_black_blocks_and_keep_bright_pixels data t m) i j
      = some none := by
  rw [remove_black_eq_pixelMap, getPix_gmap, hv]
  simp [brightPixelRule_none]

/-- Witness for C6 at the array [[NaN, 3]] (whose extrema are defined, so the
normalized branch runs) with the script's default parameters. -/
theorem remove_black_preserves_missing_check :
    getPix (remove_black_blocks_and_keep_bright_pixels [[none, some 3]]
        (1 / 10) (1 / 100)) 0 0 = some none :=
  remove_black_preserves_missing [[none, some 3]] (1 / 10) (1 / 100) 0 0
    (by with_unfolding_all decide)

/-- C9: for a fixed input array and minimum value, the set of samples the
filter keeps is antitone in the brightness threshold: a sample kept at
threshold `t2` is also kept (with the same value) at any threshold
`t1 ≤ t2`. -/
theorem remove_black_threshold_antitone (data : Grid) (m t1 t2 : ℚ)
    (h12 : t1 ≤ t2) (i j : ℕ) (a : ℚ)
    (h : getPix (remove_black_blocks_and_keep_bright_pixels data t2 m) i j
          = some (some a)) :
    getPix (remove_black_blocks_and_keep_bright_pixels data t1 m) i j
      = some (some a) := by
  rw [remove_black_eq_pixelMap, getPix_gmap] at h ⊢
  cases hv : getPix data i j with
  | none => rw [hv] at h; simp at h
  | some w =>
    rw [hv] at h
    simp only [Option.map_some'] at h ⊢
    have h2 : brightPixelRule (nanmin data) (nanmax data) t2 m w = some a := by
      simpa using h
    have h1 := brightPixelRule_threshold_antitone (nanmin data) (nanmax data)
      t1 t2 m h12 w a h2
    simpa using h1

/-- Witness for C9: at [[0, 1]] the sample kept at threshold 1/2 is also kept
at threshold 0. -/
theorem remove_black_threshold_antitone_check :
    getPix (remove_black_blocks_and_keep_bright_pixels [[some 0, some 1]] 0 0) 0 1
      = some (some 1) :=
  remove_black_threshold_antitone [[some 0, some 1]] 0 0 (1 / 2)
    (by with_unfolding_all decide) 0 1 1 (by with_unfolding_all decide)

/-- C2 counterexample: in the interactive-map path (`create_interactive_ntl_map`
line 241, embedded as `set_nodata_to_zero`, the pre-filter step of
`create_interactive_ntl_map_data`) a sample equal to the nodata marker is
replaced with 0, not with the NaN marker: at the raster [[5]] with nodata 5
the pre-filter array holds 0. -/
theorem interactive_map_nodata_zero_cex :
    getPix (set_nodata_to_zero [[some 5]] 5) 0 0 = some (some 0)
      ∧ getPix (set_nodata_to_zero [[some 5]] 5) 0 0 ≠ some none :=
  ⟨by decide, by decide⟩

/-- C2 amended: in the static-plot, comparison-grid and statistics paths a
sample equal to the nodata marker is replaced with NaN before the filter runs
(`set_nodata_to_nan`, used by `plot_geospatial_ntl_data`), while in the
interactive-map path it is replaced with 0 (`set_nodata_to_zero`, used by
`create_interactive_ntl_map_data`). -/
theorem nodata_replacement_per_path (g : Grid) (nodata : ℚ) (i j : ℕ)
    (hv : getPix g i j = some (some nodata)) :
    getPix (set_nodata_to_nan g nodata) i j = some none
      ∧ getPix (set_nodata_to_zero g nodata) i j = some (some 0) := by
  unfold set_nodata_to_nan set_nodata_to_zero
  rw [getPix_gmap, getPix_gmap, hv]
  simp

/-- Witness for the amended C2 at the raster [[5]] with nodata marker 5. -/
theorem nodata_replacement_per_path_check :
    getPix (set_nodata_to_nan [[some 5]] 5) 0 0 = some none
      ∧ getPix (set_nodata_to_zero [[some 5]] 5) 0 0 = some (some 0) :=
  nodata_replacement_per_path [[some 5]] 5 0 0 (by decide)

/-- C4: the normalization bounds used by the filter (`nanmin`/`nanmax`, the
NaN-skipping reductions the filter calls) are exactly the minimum and the
maximum of the non-missing samples: missing samples do not influence them. -/
theorem nan_bounds_are_valid_extrema (data : Grid) :
    nanmin data = spec_min_list (validValues data)
      ∧ nanmax data = spec_max_list (validValues data) :=
  ⟨foldr_fmin_eq_spec_min (gridFlat data), foldr_fmax_eq_spec_max (gridFlat data)⟩

/-- C5: the filter's output has the same shape as its input: the same number
of rows, and row by row the same length. -/
theorem remove_black_preserves_shape (data : Grid) (t m : ℚ) :
    (remove_black_blocks_and_keep_bright_pixels data t m).length = data.length
      ∧ (remove_black_blocks_and_keep_bright_pixels data t m).map List.length
          = data.map List.length := by
  rw [remove_black_eq_pixelMap]
  refine ⟨by simp [gmap], ?_⟩
  simp [gmap, List.map_map, Function.comp_def]

/-- C7: with the remove-dark-pixels filter disabled, `generate_ntl_statistics`
reports as 'Bright Area (px)' exactly the number of non-missing samples whose
value strictly exceeds the 90th percentile of the non-missing data. -/
theorem stats_bright_count_percentile (data : Grid) (t p : ℚ)
    (hp : nanpercentile90 data = some p) :
    (generate_ntl_statistics data false t).bright_area
      = (validValues data).countP (fun a => decide (p < a)) := by
  have hb : (generate_ntl_statistics data false t).bright_area
      = (gridFlat data).countP (fun v => vgtv v (nanpercentile90 data)) := rfl
  rw [hb, hp]
  have hfun : (fun v : Val => vgtv v (some p))
      = fun v : Val => match v with | some a => decide (p < a) | none => false := by
    funext v; cases v <;> rfl
  rw [hfun, countP_some_eq_countP_filterMap]
  rfl

/-- Witness for C7 at the raster [[1, 2]]: the 90th percentile of [1, 2] is
19/10, and exactly one sample exceeds it. -/
theorem stats_bright_count_percentile_check :
    (generate_ntl_statistics [[some 1, some 2]] false (1 / 10)).bright_area
      = (validValues [[some 1, some 2]]).countP (fun a => decide ((19 / 10 : ℚ) < a)) :=
  stats_bright_count_percentile [[some 1, some 2]] (1 / 10) (19 / 10)
    (by with_unfolding_all decide)

/-- C8: when any step of the masking body raises, the function returns the
input raster unchanged paired with no bounds. -/
theorem mask_admin_error_returns_input (raster_data : Grid) (e : String) :
    mask_with_administrative_boundaries raster_data (Except.error e)
      = (raster_data, none) := rfl

/-- C10: the reported bright-pixel count never exceeds the total count, and
the bright-pixel fraction always lies in [0, 1]; in particular when the total
count of valid pixels is 0 the fraction is 0 (no division by zero occurs). -/
theorem stats_bright_frac_bounds (data : Grid) (remove_black : Bool) (t : ℚ) :
    (generate_ntl_statistics data remove_black t).bright_area
        ≤ (generate_ntl_statistics data remove_black t).total_area
      ∧ 0 ≤ (generate_ntl_statistics data remove_black t).bright_frac
      ∧ (generate_ntl_statistics data remove_black t).bright_frac ≤ 1
      ∧ ((generate_ntl_statistics data remove_black t).total_area = 0
          → (generate_ntl_statistics data remove_black t).bright_frac = 0) := by
  cases remove_black with
  | true =>
    have hle : countValid (remove_black_blocks_and_keep_bright_pixels data t (1 / 100))
        ≤ countValid data := countValid_remove_black_le data t (1 / 100)
    have hb := fracBounds _ _ hle
    exact ⟨hle, hb.1, hb.2.1, hb.2.2⟩
  | false =>
    have hle := countP_vgtv_le_countValid data (nanpercentile90 data)
    have hb := fracBounds _ _ hle
    exact ⟨hle, hb.1, hb.2.1, hb.2.2⟩

/-- Witness for C10 at the empty raster: the total count is 0 and the
reported fraction is 0 (not a division-by-zero artifact). -/
theorem stats_bright_frac_bounds_check :
    0 ≤ (generate_ntl_statistics [] true (1 / 10)).bright_frac
      ∧ (generate_ntl_statistics [] true (1 / 10)).bright_frac = 0 :=
  ⟨(stats_bright_frac_bounds [] true (1 / 10)).2.1,
    (stats_bright_frac_bounds [] true (1 / 10)).2.2.2 (by with_unfolding_all decide)⟩
